import Mathlib

/-!
# Verification of the key-value cache/storage subsystem

A shallow embedding, in Lean, of the key-value cache/storage subsystem of the
Telegram-Assistant-Bot repository:

* `safe_convert` (src/tgbot/utils/helpers.py) — the string-to-value coercion
  utility, together with models of the Python library routines it calls
  (`json.loads`, `ast.literal_eval`, `int`, `float`);
* `TempCache` (src/tgbot/utils/helpers.py) — the in-memory cache with its
  list- and dict-shaped helpers;
* `BaseDatabase` (src/tgbot/core/database.py) — the cache + backend facade
  (`set` / `get` / `pop`), with the backend server modelled as an in-Lean
  key-value store;
* the backend selection logic of src/tgbot/core/database.py and
  src/tgbot/core/_database.py;
* the per-operation error routing of `SQLite.insertone`, `SQLite.deleteone`
  (src/tgbot/core/database.py) and `MongoDB.set` (src/utils/database.py).

Python values are modelled by the inductive type `PyVal`: machine floats are
represented by exact rationals (no claim involves binary rounding, NaN or
infinities), and Python dictionaries by insertion-ordered association lists.
Python `==` is modelled by `pyEq`, including the numeric identifications
`True == 1 == 1.0`; equality of two dict values is compared entrywise in
insertion order.  Python exceptions are modelled by `PyErr`/`Except`.
-/

set_option maxHeartbeats 1000000

/-- A Python value, as stored by the cache/storage subsystem: `None`, `bool`,
`int`, `float` (represented exactly as a rational), `str`, `list`, `tuple`,
or `dict` (an insertion-ordered association list). -/
inductive PyVal where
  | none : PyVal
  | bool (b : Bool) : PyVal
  | int (n : Int) : PyVal
  | float (q : ℚ) : PyVal
  | str (s : String) : PyVal
  | list (xs : List PyVal) : PyVal
  | tuple (xs : List PyVal) : PyVal
  | dict (entries : List (PyVal × PyVal)) : PyVal
deriving Repr

/-- The numeric value of a Python number, for Python's cross-type numeric
equality (`True == 1 == 1.0`); `Option.none` for non-numbers. -/
def numQ : PyVal → Option ℚ
  | .bool b => some (if b then 1 else 0)
  | .int n => some ((n : ℚ))
  | .float q => some q
  | _ => Option.none

mutual

/-- Python `==` on `PyVal`: numbers by numeric value, strings, lists and
tuples elementwise, dicts entrywise in insertion order. -/
def pyEq : PyVal → PyVal → Bool
  | .str a, .str b => a == b
  | .list xs, .list ys => pyEqList xs ys
  | .tuple xs, .tuple ys => pyEqList xs ys
  | .dict xs, .dict ys => pyEqDict xs ys
  | .none, .none => true
  | a, b =>
    match numQ a, numQ b with
    | some x, some y => x == y
    | _, _ => false

def pyEqList : List PyVal → List PyVal → Bool
  | [], [] => true
  | x :: xs, y :: ys => pyEq x y && pyEqList xs ys
  | _, _ => false

def pyEqDict : List (PyVal × PyVal) → List (PyVal × PyVal) → Bool
  | [], [] => true
  | (k, v) :: xs, (k', v') :: ys => pyEq k k' && pyEq v v' && pyEqDict xs ys
  | _, _ => false

end

/-- Whether a value may be used as a Python dict key (lists and dicts are
unhashable; a tuple is modelled as hashable). -/
def pyHashable : PyVal → Bool
  | .list _ => false
  | .dict _ => false
  | _ => true

/-- Python `item in l` for a list `l`. -/
def pyMemList (a : PyVal) (l : List PyVal) : Bool :=
  l.any (fun x => pyEq a x)

def listStartsWith : List Char → List Char → Bool
  | _, [] => true
  | [], _ :: _ => false
  | c :: cs, d :: ds => c == d && listStartsWith cs ds

/-- Substring test on character lists (Python `sub in s` for strings). -/
def listHasSub : List Char → List Char → Bool
  | [], sub => sub.isEmpty
  | c :: cs, sub => listStartsWith (c :: cs) sub || listHasSub cs sub

/-- A Python dictionary / the `TempCache`/`BaseDatabase` in-memory cache:
an insertion-ordered association list of key-value pairs. -/
abbrev Cache := List (PyVal × PyVal)

/-- Lookup: the value of the first entry whose key is `pyEq` to `k`. -/
def cacheFind : Cache → PyVal → Option PyVal
  | [], _ => Option.none
  | (k₀, v₀) :: rest, k => if pyEq k k₀ then some v₀ else cacheFind rest k

/-- Python `d[k] = v`: replace the value of the first matching entry (keeping
the original key object and its position), else append a new entry. -/
def cacheInsert : Cache → PyVal → PyVal → Cache
  | [], k, v => [(k, v)]
  | (k₀, v₀) :: rest, k, v =>
    if pyEq k k₀ then (k₀, v) :: rest else (k₀, v₀) :: cacheInsert rest k v

/-- Python `del d[k]` (on a map without duplicate keys): drop the first
matching entry. -/
def cacheErase : Cache → PyVal → Cache
  | [], _ => []
  | (k₀, v₀) :: rest, k => if pyEq k k₀ then rest else (k₀, v₀) :: cacheErase rest k

/-- Python `d.get(k, default)`. -/
def cacheGet (c : Cache) (k d : PyVal) : PyVal :=
  (cacheFind c k).getD d

/-- The number of entries of `c` whose key is `pyEq` to `k`; a cache that is
the image of a Python dict has at most one for every `k`. -/
def countMatches (c : Cache) (k : PyVal) : Nat :=
  (c.filter (fun e => pyEq k e.1)).length

/-- A Python exception escaping an operation of the subsystem. -/
inductive PyErr where
  | attributeError (msg : String) : PyErr
  | typeError (msg : String) : PyErr
deriving Repr

/-- Python `item in container`, which raises `TypeError` on a non-container,
on a dict probe with an unhashable item, and on a string probe with a
non-string item (where it is a substring test). -/
def pyContains : PyVal → PyVal → Except PyErr Bool
  | .list xs, item => .ok (pyMemList item xs)
  | .tuple xs, item => .ok (pyMemList item xs)
  | .dict d, item =>
    if pyHashable item then .ok (d.any (fun e => pyEq item e.1))
    else .error (.typeError ("unhashable type"))
  | .str s, item =>
    match item with
    | .str sub => .ok (listHasSub s.data sub.data)
    | _ => .error (.typeError ("in <string> requires string as left operand"))
  | _, _ => .error (.typeError ("argument is not iterable"))

/-- JSON / Python-source whitespace skipping (space, tab, newline, carriage
return). -/
def skipWs : List Char → List Char
  | c :: rest =>
    if c == ' ' || c == '\t' || c == '\n' || c == '\r' then skipWs rest
    else c :: rest
  | [] => []

def spanDigits (cs : List Char) : List Char × List Char :=
  (cs.takeWhile Char.isDigit, cs.dropWhile Char.isDigit)

def digitsToNat (ds : List Char) : Nat :=
  ds.foldl (fun n c => n * 10 + (c.toNat - 48)) 0

def hexVal (c : Char) : Option Nat :=
  if '0' ≤ c && c ≤ '9' then some (c.toNat - 48)
  else if 'a' ≤ c && c ≤ 'f' then some (c.toNat - 87)
  else if 'A' ≤ c && c ≤ 'F' then some (c.toNat - 55)
  else Option.none

def hex2 (h₁ h₂ : Char) : Option Nat :=
  match hexVal h₁, hexVal h₂ with
  | some a, some b => some (a * 16 + b)
  | _, _ => Option.none

def hex4 (h₁ h₂ h₃ h₄ : Char) : Option Nat :=
  match hex2 h₁ h₂, hex2 h₃ h₄ with
  | some a, some b => some (a * 256 + b)
  | _, _ => Option.none

def intOfSign (neg : Bool) (n : Nat) : Int :=
  if neg then -(n : Int) else (n : Int)

/-- The rational value of a decimal mantissa with explicit fractional digits
and a base-10 exponent. -/
def floatOfParts (neg : Bool) (ds fs : List Char) (e : Int) : ℚ :=
  (if neg then (-1 : ℚ) else 1) *
    ((digitsToNat ds : ℚ) + (digitsToNat fs : ℚ) / (10 : ℚ) ^ fs.length) *
    (10 : ℚ) ^ e

/-- Model of the body of a JSON string literal (the opening quote already
consumed): strict mode, so unescaped control characters and unknown escapes
are rejected; `\uXXXX` yields the corresponding code point (surrogate pairs
are not modelled). -/
def jsonStringBody : List Char → List Char → Option (String × List Char)
  | acc, '"' :: rest => some (String.mk acc.reverse, rest)
  | acc, '\\' :: esc =>
    match esc with
    | '"' :: r => jsonStringBody ('"' :: acc) r
    | '\\' :: r => jsonStringBody ('\\' :: acc) r
    | '/' :: r => jsonStringBody ('/' :: acc) r
    | 'n' :: r => jsonStringBody ('\n' :: acc) r
    | 't' :: r => jsonStringBody ('\t' :: acc) r
    | 'r' :: r => jsonStringBody ('\r' :: acc) r
    | 'b' :: r => jsonStringBody (Char.ofNat 8 :: acc) r
    | 'f' :: r => jsonStringBody (Char.ofNat 12 :: acc) r
    | 'u' :: h₁ :: h₂ :: h₃ :: h₄ :: r =>
      match hex4 h₁ h₂ h₃ h₄ with
      | some n => jsonStringBody (Char.ofNat n :: acc) r
      | Option.none => Option.none
    | _ => Option.none
  | acc, c :: rest =>
    if c.toNat < 32 then Option.none else jsonStringBody (c :: acc) rest
  | _, [] => Option.none

def expBody (cs : List Char) : Option (Int × List Char) :=
  let p : Bool × List Char :=
    match cs with
    | '-' :: r => (true, r)
    | '+' :: r => (false, r)
    | _ => (false, cs)
  let (ds, cs₂) := spanDigits p.2
  if ds.isEmpty then Option.none else some (intOfSign p.1 (digitsToNat ds), cs₂)

/-- An optional `e`/`E` exponent part; yields exponent `0` when absent. -/
def expPart : List Char → Option (Int × List Char)
  | 'e' :: rest => expBody rest
  | 'E' :: rest => expBody rest
  | cs => some (0, cs)

/-- Model of JSON number syntax: optional `-`, an integer part with no
leading zero, an optional fraction and exponent; an integer results unless a
fraction or exponent is present (as in Python's `json.loads`). -/
def jsonNumber (cs : List Char) : Option (PyVal × List Char) :=
  let p : Bool × List Char :=
    match cs with
    | '-' :: r => (true, r)
    | _ => (false, cs)
  let (ds, cs₂) := spanDigits p.2
  if ds.isEmpty then Option.none
  else if 1 < ds.length && ds.headD 'x' == '0' then Option.none
  else
    let fr : Option (List Char) × List Char :=
      match cs₂ with
      | '.' :: r =>
        let (fs, r') := spanDigits r
        (some fs, r')
      | _ => (Option.none, cs₂)
    match fr.1 with
    | some [] => Option.none
    | _ =>
      let hasExp : Bool :=
        match fr.2 with
        | 'e' :: _ => true
        | 'E' :: _ => true
        | _ => false
      match expPart fr.2 with
      | Option.none => Option.none
      | some (e, cs₄) =>
        if fr.1.isNone && !hasExp then
          some (.int (intOfSign p.1 (digitsToNat ds)), cs₄)
        else
          some (.float (floatOfParts p.1 ds (fr.1.getD []) e), cs₄)

mutual

/-- Model of the JSON value grammar accepted by Python's `json.loads`
(restricted to finite values: the non-standard `NaN`/`Infinity` extensions
are not modelled). -/
def jsonValue : Nat → List Char → Option (PyVal × List Char)
  | 0, _ => Option.none
  | fuel + 1, cs =>
    match skipWs cs with
    | 't' :: 'r' :: 'u' :: 'e' :: rest => some (.bool true, rest)
    | 'f' :: 'a' :: 'l' :: 's' :: 'e' :: rest => some (.bool false, rest)
    | 'n' :: 'u' :: 'l' :: 'l' :: rest => some (.none, rest)
    | '"' :: rest =>
      match jsonStringBody [] rest with
      | some (s, r) => some (.str s, r)
      | Option.none => Option.none
    | '[' :: rest =>
      (match skipWs rest with
       | ']' :: r => some (.list [], r)
       | cs' =>
         match jsonValue fuel cs' with
         | some (v, r) => jsonArrayTail fuel [v] r
         | Option.none => Option.none)
    | '\x7b' :: rest =>
      (match skipWs rest with
       | '\x7d' :: r => some (.dict [], r)
       | cs' => jsonObjectEntry fuel [] cs')
    | cs' => jsonNumber cs'

def jsonArrayTail : Nat → List PyVal → List Char → Option (PyVal × List Char)
  | 0, _, _ => Option.none
  | fuel + 1, acc, cs =>
    match skipWs cs with
    | ',' :: rest =>
      (match jsonValue fuel rest with
       | some (v, r) => jsonArrayTail fuel (acc ++ [v]) r
       | Option.none => Option.none)
    | ']' :: rest => some (.list acc, rest)
    | _ => Option.none

def jsonObjectEntry :
    Nat → List (PyVal × PyVal) → List Char → Option (PyVal × List Char)
  | 0, _, _ => Option.none
  | fuel + 1, acc, cs =>
    match skipWs cs with
    | '"' :: rest =>
      (match jsonStringBody [] rest with
       | some (k, r) =>
         (match skipWs r with
          | ':' :: r₂ =>
            (match jsonValue fuel r₂ with
             | some (v, r₃) => jsonObjectTail fuel (cacheInsert acc (.str k) v) r₃
             | Option.none => Option.none)
          | _ => Option.none)
       | Option.none => Option.none)
    | _ => Option.none

def jsonObjectTail :
    Nat → List (PyVal × PyVal) → List Char → Option (PyVal × List Char)
  | 0, _, _ => Option.none
  | fuel + 1, acc, cs =>
    match skipWs cs with
    | ',' :: rest => jsonObjectEntry fuel acc rest
    | '\x7d' :: rest => some (.dict acc, rest)
    | _ => Option.none

end

/-- Model of Python `json.loads` on the trimmed input: the whole string must
be consumed (trailing whitespace apart); `Option.none` models the raised
`JSONDecodeError`. -/
def jsonLoads (s : String) : Option PyVal :=
  match jsonValue (s.length + 1) s.data with
  | some (v, rest) => if (skipWs rest).isEmpty then some v else Option.none
  | Option.none => Option.none

/-- Simple escapes of Python string literals. -/
def pyEscChar : Char → Option Char
  | 'n' => some '\n'
  | 't' => some '\t'
  | 'r' => some '\r'
  | 'b' => some (Char.ofNat 8)
  | 'f' => some (Char.ofNat 12)
  | '\\' => some '\\'
  | '\'' => some '\''
  | '"' => some '"'
  | _ => Option.none

/-- Model of the body of a single-line Python string literal with quote
character `q` (the opening quote already consumed): `\xHH` and `\uHHHH`
escapes yield the code point, an unknown escape keeps its backslash, and an
unescaped newline is a syntax error (triple-quoted and byte literals are not
modelled). -/
def pyStringBody (q : Char) : List Char → List Char → Option (String × List Char)
  | _, [] => Option.none
  | acc, '\\' :: esc =>
    (match esc with
     | 'x' :: h₁ :: h₂ :: r =>
       match hex2 h₁ h₂ with
       | some n => pyStringBody q (Char.ofNat n :: acc) r
       | Option.none => Option.none
     | 'u' :: h₁ :: h₂ :: h₃ :: h₄ :: r =>
       match hex4 h₁ h₂ h₃ h₄ with
       | some n => pyStringBody q (Char.ofNat n :: acc) r
       | Option.none => Option.none
     | c :: r =>
       match pyEscChar c with
       | some e => pyStringBody q (e :: acc) r
       | Option.none => pyStringBody q (c :: '\\' :: acc) r
     | [] => Option.none)
  | acc, c :: rest =>
    if c == q then some (String.mk acc.reverse, rest)
    else if c == '\n' then Option.none
    else pyStringBody q (c :: acc) rest

/-- Model of a Python number literal with an optional unary sign, as accepted
by `ast.literal_eval`: decimal integers (leading zeros only on zero itself)
and point/exponent floats. Hexadecimal/octal/binary/underscore forms and
complex literals are not modelled. -/
def litNumber (cs : List Char) : Option (PyVal × List Char) :=
  let p : Bool × List Char :=
    match cs with
    | '-' :: r => (true, skipWs r)
    | '+' :: r => (false, skipWs r)
    | _ => (false, cs)
  let (ds, cs₂) := spanDigits p.2
  match cs₂ with
  | '.' :: r =>
    let (fs, cs₃) := spanDigits r
    if ds.isEmpty && fs.isEmpty then Option.none
    else
      (match expPart cs₃ with
       | some (e, cs₄) => some (.float (floatOfParts p.1 ds fs e), cs₄)
       | Option.none => Option.none)
  | _ =>
    if ds.isEmpty then Option.none
    else
      let hasExp : Bool :=
        match cs₂ with
        | 'e' :: _ => true
        | 'E' :: _ => true
        | _ => false
      match expPart cs₂ with
      | Option.none => Option.none
      | some (e, cs₄) =>
        if hasExp then some (.float (floatOfParts p.1 ds [] e), cs₄)
        else if ds.headD 'x' == '0' && ds.any (fun c => c != '0') then Option.none
        else some (.int (intOfSign p.1 (digitsToNat ds)), cs₄)

mutual

/-- Model of the literal grammar accepted by Python's `ast.literal_eval`:
`None`/`True`/`False`, numbers with an optional unary sign, single-line
string literals, lists, parenthesised groupings and tuples, and dicts.
Set literals, bytes, implicit string concatenation and top-level unparenthesised
tuples are not modelled (they are rejected rather than evaluated). -/
def litValue : Nat → List Char → Option (PyVal × List Char)
  | 0, _ => Option.none
  | fuel + 1, cs =>
    match skipWs cs with
    | 'N' :: 'o' :: 'n' :: 'e' :: rest => some (.none, rest)
    | 'T' :: 'r' :: 'u' :: 'e' :: rest => some (.bool true, rest)
    | 'F' :: 'a' :: 'l' :: 's' :: 'e' :: rest => some (.bool false, rest)
    | '\'' :: rest =>
      (match pyStringBody '\'' [] rest with
       | some (s, r) => some (.str s, r)
       | Option.none => Option.none)
    | '"' :: rest =>
      (match pyStringBody '"' [] rest with
       | some (s, r) => some (.str s, r)
       | Option.none => Option.none)
    | '[' :: rest =>
      (match skipWs rest with
       | ']' :: r => some (.list [], r)
       | cs' =>
         match litValue fuel cs' with
         | some (v, r) => litListTail fuel [v] r
         | Option.none => Option.none)
    | '(' :: rest =>
      (match skipWs rest with
       | ')' :: r => some (.tuple [], r)
       | cs' =>
         match litValue fuel cs' with
         | some (v, r) =>
           (match skipWs r with
            | ')' :: r' => some (v, r')
            | ',' :: r' => litTupleTail fuel [v] r'
            | _ => Option.none)
         | Option.none => Option.none)
    | '\x7b' :: rest =>
      (match skipWs rest with
       | '\x7d' :: r => some (.dict [], r)
       | cs' => litDictEntry fuel [] cs')
    | cs' => litNumber cs'

def litListTail : Nat → List PyVal → List Char → Option (PyVal × List Char)
  | 0, _, _ => Option.none
  | fuel + 1, acc, cs =>
    match skipWs cs with
    | ',' :: rest =>
      (match skipWs rest with
       | ']' :: r => some (.list acc, r)
       | cs' =>
         match litValue fuel cs' with
         | some (v, r) => litListTail fuel (acc ++ [v]) r
         | Option.none => Option.none)
    | ']' :: rest => some (.list acc, rest)
    | _ => Option.none

def litTupleTail : Nat → List PyVal → List Char → Option (PyVal × List Char)
  | 0, _, _ => Option.none
  | fuel + 1, acc, cs =>
    match skipWs cs with
    | ')' :: rest => some (.tuple acc, rest)
    | cs' =>
      match litValue fuel cs' with
      | some (v, r) =>
        (match skipWs r with
         | ',' :: r' => litTupleTail fuel (acc ++ [v]) r'
         | ')' :: r' => some (.tuple (acc ++ [v]), r')
         | _ => Option.none)
      | Option.none => Option.none

def litDictEntry :
    Nat → List (PyVal × PyVal) → List Char → Option (PyVal × List Char)
  | 0, _, _ => Option.none
  | fuel + 1, acc, cs =>
    match litValue fuel cs with
    | some (k, r) =>
      (match skipWs r with
       | ':' :: r₂ =>
         (match litValue fuel r₂ with
          | some (v, r₃) => litDictTail fuel (cacheInsert acc k v) r₃
          | Option.none => Option.none)
       | _ => Option.none)
    | Option.none => Option.none

def litDictTail :
    Nat → List (PyVal × PyVal) → List Char → Option (PyVal × List Char)
  | 0, _, _ => Option.none
  | fuel + 1, acc, cs =>
    match skipWs cs with
    | ',' :: rest =>
      (match skipWs rest with
       | '\x7d' :: r => some (.dict acc, r)
       | cs' => litDictEntry fuel acc cs')
    | '\x7d' :: rest => some (.dict acc, rest)
    | _ => Option.none

end

/-- Model of Python `ast.literal_eval` on the trimmed input; `Option.none`
models the raised `ValueError`/`SyntaxError`. -/
def literal_eval (s : String) : Option PyVal :=
  match litValue (s.length + 1) s.data with
  | some (v, rest) => if (skipWs rest).isEmpty then some v else Option.none
  | Option.none => Option.none

/-- Python `value.lstrip("-").isdigit()` (ASCII digits; the Unicode digit
classes accepted by `str.isdigit` are not modelled). -/
def lstripMinusIsdigit (s : String) : Bool :=
  let ds := s.data.dropWhile (fun c => c == '-')
  !ds.isEmpty && ds.all Char.isDigit

/-- Model of Python `int(s)` on an already-trimmed string: one optional sign
followed by decimal digits; `Option.none` models the raised `ValueError`. -/
def pyIntOfString (s : String) : Option Int :=
  match s.data with
  | '-' :: ds =>
    if !ds.isEmpty && ds.all Char.isDigit then some (-(digitsToNat ds : Int))
    else Option.none
  | '+' :: ds =>
    if !ds.isEmpty && ds.all Char.isDigit then some ((digitsToNat ds : Int))
    else Option.none
  | ds =>
    if !ds.isEmpty && ds.all Char.isDigit then some ((digitsToNat ds : Int))
    else Option.none

/-- Model of Python `float(s)` on an already-trimmed string: one optional
sign, digits with an optional point and exponent; the non-finite literals
`inf`/`infinity`/`nan` and underscore separators are not modelled.
`Option.none` models the raised `ValueError`. -/
def pyFloatOfString (s : String) : Option ℚ :=
  let p : Bool × List Char :=
    match s.data with
    | '-' :: r => (true, r)
    | '+' :: r => (false, r)
    | _ => (false, s.data)
  let (ds, cs₂) := spanDigits p.2
  let fr : Option (List Char) × List Char :=
    match cs₂ with
    | '.' :: r =>
      let (fs, r') := spanDigits r
      (some fs, r')
    | _ => (Option.none, cs₂)
  if ds.isEmpty && (fr.1.getD []).isEmpty then Option.none
  else
    match expPart fr.2 with
    | Option.none => Option.none
    | some (e, cs₄) =>
      if cs₄.isEmpty then some (floatOfParts p.1 ds (fr.1.getD []) e)
      else Option.none

/-- The third conversion step of `safe_convert` (helpers.py lines 119-123):
`int(value) if value.lstrip("-").isdigit() else float(value)`, with the
`ValueError` of either call caught by the surrounding `except`. -/
def numericStep (v : String) : Option PyVal :=
  if lstripMinusIsdigit v then (pyIntOfString v).map .int
  else (pyFloatOfString v).map .float

/-- A whitespace character for Python `str.strip()`. -/
def isPyWs (c : Char) : Bool :=
  c == ' ' || c == '\t' || c == '\n' || c == '\r' || c == Char.ofNat 11 || c == Char.ofNat 12

/-- Model of Python `value.strip()`. -/
def pyStrip (s : String) : String :=
  String.mk (((s.data.dropWhile isPyWs).reverse.dropWhile isPyWs).reverse)

/-- `safe_convert` (src/tgbot/utils/helpers.py lines 91-125): strip the
input, then try `json.loads`, then `ast.literal_eval`, then the
`int`/`float` step, and fall back to the stripped string itself. -/
def safe_convert (value : String) : PyVal :=
  let v := pyStrip value
  match jsonLoads v with
  | some r => r
  | Option.none =>
    match literal_eval v with
    | some r => r
    | Option.none =>
      match numericStep v with
      | some r => r
      | Option.none => .str v

/-- The key/value conditioning used by `BaseDatabase.set`/`get`/`pop`:
`if isinstance(x, str): x = safe_convert(x)`. -/
def normIfStr : PyVal → PyVal
  | .str s => safe_convert s
  | v => v

/-- The `list.extend(x for x in value if x not in cache[key])` of
`ListWrapper.set`: the generator's membership test runs against the list
being extended, so elements appended during the extension are seen by the
later tests (duplicates inside `value` are skipped too). -/
def extendNovel (l xs : List PyVal) : List PyVal :=
  xs.foldl (fun acc x => if pyMemList x acc then acc else acc ++ [x]) l

/-- Python `list.remove(value)`: drop the first element equal to `value`;
`Option.none` models the raised `ValueError` when no element matches. -/
def pyRemoveFirst : List PyVal → PyVal → Option (List PyVal)
  | [], _ => Option.none
  | x :: xs, v =>
    if pyEq v x then some xs else (pyRemoveFirst xs v).map (fun t => x :: t)

/-- From the spec's words (§4.2, `set_list_item`): "if `item` is itself a
list, extend with only the novel elements, preserving insertion order and
skipping duplicates" — the elements of `xs` not already in `l`, first
occurrences only, in order.  Compared against the code's `extendNovel`. -/
def specNovelElements (l xs : List PyVal) : List PyVal :=
  xs.foldl (fun acc x => if pyMemList x (l ++ acc) then acc else acc ++ [x]) []

namespace TempCache

/-- `TempCache.set` (helpers.py 142-145): unconditional `cache[key] = value`;
a `TypeError` is raised on an unhashable key. -/
def set (c : Cache) (key value : PyVal) : Except PyErr (Cache × Bool) :=
  if pyHashable key then .ok (cacheInsert c key value, true)
  else .error (.typeError ("unhashable type"))

/-- `TempCache.get` (helpers.py 147-149): `cache.get(key, default)`. -/
def get (c : Cache) (key default : PyVal) : Except PyErr PyVal :=
  if pyHashable key then .ok (cacheGet c key default)
  else .error (.typeError ("unhashable type"))

/-- `TempCache.delete` (helpers.py 151-157): logs and returns `False` when
the key is absent, else removes it and returns `True`. -/
def delete (c : Cache) (key : PyVal) : Except PyErr (Cache × Bool) :=
  if pyHashable key then
    match cacheFind c key with
    | Option.none => .ok (c, false)
    | some _ => .ok (cacheErase c key, true)
  else .error (.typeError ("unhashable type"))

namespace ListWrapper

/-- `TempCache.list` / `ListWrapper.set` (helpers.py 169-180): initialize the
key to `[]` when absent; extend with the novel elements of a list item, else
append the item when not already present.  When the stored value is not a
list, the `.extend`/`.append` attribute lookups raise `AttributeError`, and
the membership test itself may raise `TypeError` — but an item that tests as
a member (e.g. a key of a stored dict) returns `True` without any change. -/
def set (c : Cache) (key value : PyVal) : Except PyErr (Cache × Bool) :=
  if pyHashable key then
    let c' :=
      match cacheFind c key with
      | Option.none => cacheInsert c key (.list [])
      | some _ => c
    let cur := (cacheFind c' key).getD (.list [])
    match value with
    | .list xs =>
      (match cur with
       | .list l => .ok (cacheInsert c' key (.list (extendNovel l xs)), true)
       | _ => .error (.attributeError ("object has no attribute extend")))
    | _ =>
      (match pyContains cur value with
       | .error e => .error e
       | .ok b =>
         if b then .ok (c', true)
         else
           match cur with
           | .list l => .ok (cacheInsert c' key (.list (l ++ [value])), true)
           | _ => .error (.attributeError ("object has no attribute append")))
  else .error (.typeError ("unhashable type"))

/-- `TempCache.list` / `ListWrapper.delete` (helpers.py 182-195): remove the
item from a list-shaped value, deleting the key if the list becomes empty;
returns `False` on a missing key, a non-list value, or a missing item
(the `ValueError` of `list.remove` is caught). -/
def delete (c : Cache) (key value : PyVal) : Except PyErr (Cache × Bool) :=
  if pyHashable key then
    match cacheFind c key with
    | some (.list l) =>
      (match pyRemoveFirst l value with
       | some l' =>
         if l'.isEmpty then .ok (cacheErase c key, true)
         else .ok (cacheInsert c key (.list l'), true)
       | Option.none => .ok (c, false))
    | _ => .ok (c, false)
  else .error (.typeError ("unhashable type"))

end ListWrapper

namespace DictWrapper

/-- `TempCache.dict` / `DictWrapper.set` (helpers.py 208-225): initialize the
key to an empty dict when absent; inside a dict-shaped value, append to an
existing list-valued subkey, pair up with an existing scalar, or set a fresh
subkey.  When the stored value is not a dict, the `isinstance` guard fails
and the method returns `True` without touching it. -/
def set (c : Cache) (dict_key sub_key value : PyVal) : Except PyErr (Cache × Bool) :=
  if pyHashable dict_key then
    let c' :=
      match cacheFind c dict_key with
      | Option.none => cacheInsert c dict_key (.dict [])
      | some _ => c
    match (cacheFind c' dict_key).getD (.dict []) with
    | .dict d =>
      if pyHashable sub_key then
        match cacheFind d sub_key with
        | some existing =>
          (match existing with
           | .list l =>
             .ok (cacheInsert c' dict_key
                    (.dict (cacheInsert d sub_key (.list (l ++ [value])))), true)
           | _ =>
             .ok (cacheInsert c' dict_key
                    (.dict (cacheInsert d sub_key (.list [existing, value]))), true))
        | Option.none =>
          .ok (cacheInsert c' dict_key (.dict (cacheInsert d sub_key value)), true)
      else .error (.typeError ("unhashable type"))
    | _ => .ok (c', true)
  else .error (.typeError ("unhashable type"))

end DictWrapper

end TempCache

/-- The state of the `BaseDatabase` facade: the in-memory cache plus the
backend server's key-value content.  The abstract methods `insertone`,
`fetchone` and `deleteone` wrap external database drivers; they are modelled
here as operations on the `store` component per their documented contract
(upsert / fetch-or-default / delete); per-operation backend failures are
modelled separately (see the error-routing section). -/
structure BaseDatabaseState where
  cache : Cache
  store : Cache
deriving Repr

/-- The backend upsert behind `BaseDatabase.set` (abstract `insertone`). -/
def insertone (db : BaseDatabaseState) (key value : PyVal) : BaseDatabaseState :=
  { db with store := cacheInsert db.store key value }

/-- The backend fetch behind `BaseDatabase.get` (abstract `fetchone`):
the stored value, or `default` when the key is absent. -/
def fetchone (db : BaseDatabaseState) (key default : PyVal) : PyVal :=
  (cacheFind db.store key).getD default

/-- The backend delete behind `BaseDatabase.pop` (abstract `deleteone`). -/
def deleteone (db : BaseDatabaseState) (key : PyVal) : BaseDatabaseState :=
  { db with store := cacheErase db.store key }

namespace BaseDatabase

/-- `BaseDatabase.set` (database.py 127-153): coerce a string key and a
string value through `safe_convert`, write the cache, and unless `in_memory`
also upsert the backend.  A key that coerces to an unhashable value raises
`TypeError` at the cache write. -/
def set (db : BaseDatabaseState) (key value : PyVal) (in_memory : Bool) :
    Except PyErr BaseDatabaseState :=
  let key := normIfStr key
  let value := normIfStr value
  if pyHashable key then
    let db' := { db with cache := cacheInsert db.cache key value }
    if in_memory then .ok db' else .ok (insertone db' key value)
  else .error (.typeError ("unhashable type"))

/-- `BaseDatabase.get` (database.py 155-175): coerce a string key, serve from
the cache when present, else fetch from the backend (defaulting on absence)
and cache whatever was fetched. -/
def get (db : BaseDatabaseState) (key default : PyVal) :
    Except PyErr (PyVal × BaseDatabaseState) :=
  let key := normIfStr key
  if pyHashable key then
    match cacheFind db.cache key with
    | some v => .ok (v, db)
    | Option.none =>
      let v := fetchone db key default
      .ok (v, { db with cache := cacheInsert db.cache key v })
  else .error (.typeError ("unhashable type"))

/-- `BaseDatabase.pop` (database.py 177-193): coerce a string key, drop it
from the cache if present, and delete it from the backend. -/
def pop (db : BaseDatabaseState) (key : PyVal) : Except PyErr BaseDatabaseState :=
  let key := normIfStr key
  if pyHashable key then
    .ok (deleteone { db with cache := cacheErase db.cache key } key)
  else .error (.typeError ("unhashable type"))

end BaseDatabase

/-- The startup configuration relevant to backend selection: whether each of
the two connection-string environment variables is set to a truthy value. -/
structure ConfigVars where
  DATABASE_URL : Bool
  MONGO_URI : Bool

inductive BackendChoice where
  | mongodb : BackendChoice
  | postgresql : BackendChoice
  | sqlite : BackendChoice
deriving Repr, DecidableEq

/-- The module-level driver selection of src/tgbot/core/database.py lines
16-37: `if Var.DATABASE_URL:` import psycopg2 (PostgreSQL), `elif
Var.MONGO_URI:` import pymongo (MongoDB), `else` sqlite3. -/
def coreDriverChoice (c : ConfigVars) : BackendChoice :=
  if c.DATABASE_URL then .postgresql
  else if c.MONGO_URI then .mongodb
  else .sqlite

/-- The module-level driver selection of src/tgbot/core/_database.py lines
22-42: when MONGO_URI is truthy the pymongo driver is loaded, otherwise when
DATABASE_URL is truthy psycopg2, and otherwise sqlite3. -/
def underscoreDriverChoice (c : ConfigVars) : BackendChoice :=
  if c.MONGO_URI then .mongodb
  else if c.DATABASE_URL then .postgresql
  else .sqlite

/-- `BotDB` (src/tgbot/core/_database.py lines 364-375): return the backend
class whose driver module was imported by the module-level selection
(`if MongoClient: MongoDB(...) elif psycopg2: PostgreSQL(...) else SQLite()`). -/
def BotDB (c : ConfigVars) : BackendChoice :=
  if underscoreDriverChoice c = BackendChoice.mongodb then .mongodb
  else if underscoreDriverChoice c = BackendChoice.postgresql then .postgresql
  else .sqlite

/-- The outcome of the underlying database-driver call (cursor execute /
collection update) behind one storage operation: success, or a driver-level
error carrying its message. -/
inductive DriverOutcome where
  | ok : DriverOutcome
  | fail (msg : String) : DriverOutcome

/-- An exception crossing the backend boundary: the subsystem's
`DatabaseError` wrapper (database.py lines 40-75) tagged with the detected
provider, or a driver's native exception propagating unwrapped. -/
inductive DbExc where
  | databaseError (provider : String) (msg : String) : DbExc
  | nativeError (provider : String) (msg : String) : DbExc
deriving Repr

/-- How a storage operation terminates from the caller's point of view:
a returned value, or a raised exception. -/
inductive OpOutcome (α : Type) where
  | value (a : α) : OpOutcome α
  | raised (e : DbExc) : OpOutcome α
deriving Repr

namespace SQLite

/-- `SQLite.insertone` (database.py 390-420): the upsert runs under
`try`/`except sqlite3.Error as e: raise DatabaseError(e) from e` — a failing
driver call is re-raised as the `DatabaseError` wrapper, not returned. -/
def insertone (driver : DriverOutcome) : OpOutcome Unit :=
  match driver with
  | .ok => .value ()
  | .fail m => .raised (.databaseError ("SQLite") m)

/-- `SQLite.deleteone` (database.py 455-471) has no `try`/`except` at all:
a `sqlite3.Error` raised by the driver propagates natively to the caller. -/
def deleteone (driver : DriverOutcome) : OpOutcome Unit :=
  match driver with
  | .ok => .value ()
  | .fail m => .raised (.nativeError ("SQLite") m)

end SQLite

/-- The value returned by `MongoDB.set` of src/utils/database.py: `True` on
success, or the `(False, error-description)` pair built in its `except`
handler (the description also carries the formatted traceback, modelled here
by the message prefix). -/
inductive MongoSetReturn where
  | success : MongoSetReturn
  | failure (desc : String) : MongoSetReturn
deriving Repr

namespace MongoDB

/-- `MongoDB.set` (src/utils/database.py lines 38-47): the update runs under
`try`/`except errors.PyMongoError`; a failing driver call is logged and
returned as `(False, err)` — a tagged failure result, not a raise. -/
def set (driver : DriverOutcome) : OpOutcome MongoSetReturn :=
  match driver with
  | .ok => .value .success
  | .fail m => .value (.failure ("MongoDB Set Key Error: " ++ m))

end MongoDB

mutual

theorem pyEq_refl : ∀ a : PyVal, pyEq a a = true
  | .none => rfl
  | .bool b => by cases b <;> rfl
  | .int n => by simp [pyEq, numQ]
  | .float q => by simp [pyEq, numQ]
  | .str s => by simp [pyEq]
  | .list xs => by simpa [pyEq] using pyEqList_refl xs
  | .tuple xs => by simpa [pyEq] using pyEqList_refl xs
  | .dict xs => by simpa [pyEq] using pyEqDict_refl xs

theorem pyEqList_refl : ∀ xs : List PyVal, pyEqList xs xs = true
  | [] => rfl
  | x :: xs => by
    simp only [pyEqList, Bool.and_eq_true]
    exact ⟨pyEq_refl x, pyEqList_refl xs⟩

theorem pyEqDict_refl : ∀ xs : List (PyVal × PyVal), pyEqDict xs xs = true
  | [] => rfl
  | (k, v) :: xs => by
    simp only [pyEqDict, Bool.and_eq_true]
    exact ⟨⟨pyEq_refl k, pyEq_refl v⟩, pyEqDict_refl xs⟩

end

theorem cacheFind_cacheInsert_self (c : Cache) (k v : PyVal) :
    cacheFind (cacheInsert c k v) k = some v := by
  induction c with
  | nil => simp [cacheInsert, cacheFind, pyEq_refl]
  | cons e rest ih =>
    obtain ⟨k₀, v₀⟩ := e
    by_cases h : pyEq k k₀ = true
    · simp [cacheInsert, cacheFind, h]
    · simp [cacheInsert, cacheFind, h, ih]

theorem cacheInsert_cacheInsert (c : Cache) (k v w : PyVal) :
    cacheInsert (cacheInsert c k v) k w = cacheInsert c k w := by
  induction c with
  | nil => simp [cacheInsert, pyEq_refl]
  | cons e rest ih =>
    obtain ⟨k₀, v₀⟩ := e
    by_cases h : pyEq k k₀ = true
    · simp [cacheInsert, h]
    · simp [cacheInsert, h, ih]

theorem cacheInsert_eq_self_of_cacheFind (c : Cache) (k v : PyVal)
    (h : cacheFind c k = some v) : cacheInsert c k v = c := by
  induction c with
  | nil => simp [cacheFind] at h
  | cons e rest ih =>
    obtain ⟨k₀, v₀⟩ := e
    by_cases h₀ : pyEq k k₀ = true
    · simp [cacheFind, h₀] at h
      simp [cacheInsert, h₀, h]
    · simp [cacheFind, h₀] at h
      simp [cacheInsert, h₀, ih h]

theorem cacheFind_eq_none_of_countMatches_zero (c : Cache) (k : PyVal)
    (h : countMatches c k = 0) : cacheFind c k = Option.none := by
  induction c with
  | nil => rfl
  | cons e rest ih =>
    obtain ⟨k₀, v₀⟩ := e
    by_cases h₀ : pyEq k k₀ = true
    · simp [countMatches, List.filter, h₀] at h
    · simp [countMatches, List.filter, h₀] at h
      simpa [cacheFind, h₀] using ih (by simpa [countMatches])

theorem cacheFind_cacheErase_self (c : Cache) (k : PyVal)
    (h : countMatches c k ≤ 1) : cacheFind (cacheErase c k) k = Option.none := by
  induction c with
  | nil => rfl
  | cons e rest ih =>
    obtain ⟨k₀, v₀⟩ := e
    by_cases h₀ : pyEq k k₀ = true
    · have hz : countMatches rest k = 0 := by
        simp [countMatches, List.filter, h₀] at h
        simpa [countMatches] using h
      simpa [cacheErase, h₀] using cacheFind_eq_none_of_countMatches_zero rest k hz
    · have hr : countMatches rest k ≤ 1 := by
        simpa [countMatches, List.filter, h₀] using h
      simpa [cacheErase, cacheFind, h₀] using ih hr

theorem pyMemList_append (a : PyVal) (l₁ l₂ : List PyVal) :
    pyMemList a (l₁ ++ l₂) = (pyMemList a l₁ || pyMemList a l₂) := by
  simp [pyMemList]

theorem extendNovel_cons (l : List PyVal) (x : PyVal) (xs : List PyVal) :
    extendNovel l (x :: xs) =
      extendNovel (if pyMemList x l then l else l ++ [x]) xs := rfl

theorem pyMemList_extendNovel_of_mem (a : PyVal) (l xs : List PyVal)
    (h : pyMemList a l = true) : pyMemList a (extendNovel l xs) = true := by
  induction xs generalizing l with
  | nil => simpa [extendNovel]
  | cons x xs ih =>
    rw [extendNovel_cons]
    by_cases hx : pyMemList x l = true
    · simpa [hx] using ih l h
    · have : pyMemList a (l ++ [x]) = true := by
        simp [pyMemList_append, h]
      simpa [hx] using ih (l ++ [x]) this

theorem pyMemList_extendNovel_of_mem_arg (a : PyVal) (xs : List PyVal) :
    ∀ l : List PyVal, a ∈ xs → pyMemList a (extendNovel l xs) = true := by
  induction xs with
  | nil =>
    intro l h
    simp at h
  | cons x xs ih =>
    intro l h
    rw [extendNovel_cons]
    rcases List.mem_cons.mp h with h' | h'
    · subst h'
      by_cases hx : pyMemList a l = true
      · simpa [hx] using pyMemList_extendNovel_of_mem a l xs hx
      · have hm : pyMemList a (l ++ [a]) = true := by
          simp [pyMemList_append, pyMemList, pyEq_refl]
        simpa [hx] using pyMemList_extendNovel_of_mem a (l ++ [a]) xs hm
    · exact ih _ h'

theorem extendNovel_eq_self (xs : List PyVal) :
    ∀ l : List PyVal, (∀ x ∈ xs, pyMemList x l = true) → extendNovel l xs = l := by
  induction xs with
  | nil =>
    intro l _
    rfl
  | cons x xs ih =>
    intro l h
    rw [extendNovel_cons]
    have hx : pyMemList x l = true := h x (List.mem_cons_self x xs)
    simpa [hx] using ih l (fun y hy => h y (List.mem_cons_of_mem x hy))

theorem extendNovel_extendNovel (l xs : List PyVal) :
    extendNovel (extendNovel l xs) xs = extendNovel l xs :=
  extendNovel_eq_self xs (extendNovel l xs)
    (fun x hx => pyMemList_extendNovel_of_mem_arg x xs l hx)

theorem foldl_extend_append (xs : List PyVal) :
    ∀ l acc : List PyVal,
      xs.foldl (fun a x => if pyMemList x a then a else a ++ [x]) (l ++ acc) =
        l ++ xs.foldl (fun a x => if pyMemList x (l ++ a) then a else a ++ [x]) acc := by
  induction xs with
  | nil =>
    intro l acc
    simp
  | cons x xs ih =>
    intro l acc
    simp only [List.foldl_cons]
    by_cases h : pyMemList x (l ++ acc) = true
    · simpa [h] using ih l acc
    · have ha : (l ++ acc) ++ [x] = l ++ (acc ++ [x]) := by
        simp [List.append_assoc]
      simpa [h, ha] using ih l (acc ++ [x])

/-- The code's list extension equals the stored list followed by exactly the
spec's novel elements: `ListWrapper.set` with a list item appends only the
novel elements, preserving insertion order and skipping duplicates. -/
theorem extendNovel_eq_append_specNovelElements (l xs : List PyVal) :
    extendNovel l xs = l ++ specNovelElements l xs := by
  have h := foldl_extend_append xs l []
  simpa [extendNovel, specNovelElements] using h

/-- C2 (counterexample): the conversion chain has no case-insensitive
boolean-keyword step — `safe_convert "TRUE"` returns the string `"TRUE"`
(JSON accepts only `true`, the Python literal step only `True`), not the
boolean `true` that a case-insensitive parse would produce. -/
theorem safe_convert_not_case_insensitive_bool :
    safe_convert "TRUE" = PyVal.str "TRUE" ∧ PyVal.str "TRUE" ≠ PyVal.bool true := by
  refine ⟨rfl, ?_⟩
  intro h
  exact PyVal.noConfusion h

/-- C2 (amended): `safe_convert` is total and tries, in order, a JSON parse,
a Python-literal parse, and an integer/float parse, falling back to the
stripped input string; `"42"` ↦ `42`, `"3.14"` ↦ `3.14`, `"true"`/`"True"`
↦ `true`, `"false"`/`"False"` ↦ `false`, `"[1, 2]"` ↦ `[1, 2]`, `"hello"` ↦
`"hello"` — but boolean keywords are recognised only in those two spellings,
so `"TRUE"` and `"FALSE"` remain strings. -/
theorem safe_convert_conversion_table :
    safe_convert "42" = PyVal.int 42 ∧
    safe_convert "3.14" = PyVal.float (157 / 50) ∧
    safe_convert "true" = PyVal.bool true ∧
    safe_convert "false" = PyVal.bool false ∧
    safe_convert "True" = PyVal.bool true ∧
    safe_convert "False" = PyVal.bool false ∧
    safe_convert "[1, 2]" = PyVal.list [PyVal.int 1, PyVal.int 2] ∧
    safe_convert "hello" = PyVal.str "hello" ∧
    safe_convert "TRUE" = PyVal.str "TRUE" ∧
    safe_convert "FALSE" = PyVal.str "FALSE" := by
  refine ⟨rfl, ?_, rfl, rfl, rfl, rfl, rfl, rfl, rfl, rfl⟩
  have h : safe_convert "3.14" = PyVal.float (floatOfParts false ['3'] ['1', '4'] 0) := by
    rfl
  have h₂ : floatOfParts false ['3'] ['1', '4'] 0 = 157 / 50 := by
    norm_num [floatOfParts, digitsToNat, show ('3'.toNat - 48) = 3 from rfl,
      show ('1'.toNat - 48) = 1 from rfl, show ('4'.toNat - 48) = 4 from rfl]
  rw [h, h₂]

/-- C3 (counterexample): with both `MONGO_URI` and `DATABASE_URL` set, the
module-level selection of src/tgbot/core/database.py checks `DATABASE_URL`
first and therefore chooses the relational backend, not the document one. -/
theorem backend_selection_core_both_set_cex :
    coreDriverChoice ⟨true, true⟩ = BackendChoice.postgresql ∧
    BackendChoice.postgresql ≠ BackendChoice.mongodb := by
  refine ⟨rfl, ?_⟩
  intro h
  exact BackendChoice.noConfusion h

/-- C3 (amended): with only `DATABASE_URL` set, every selection site chooses
the relational backend; with both set, `_database.py`'s import selection and
its `BotDB` factory choose the document backend, but `database.py`'s
module-level selection checks `DATABASE_URL` first and chooses the
relational backend. -/
theorem backend_selection_priority :
    coreDriverChoice ⟨true, false⟩ = BackendChoice.postgresql ∧
    underscoreDriverChoice ⟨true, false⟩ = BackendChoice.postgresql ∧
    BotDB ⟨true, false⟩ = BackendChoice.postgresql ∧
    underscoreDriverChoice ⟨true, true⟩ = BackendChoice.mongodb ∧
    BotDB ⟨true, true⟩ = BackendChoice.mongodb ∧
    coreDriverChoice ⟨true, true⟩ = BackendChoice.postgresql := by
  refine ⟨rfl, rfl, by decide, rfl, by decide, rfl⟩

/-- C6 (counterexample): a failing driver call inside `SQLite.insertone` is
re-raised as the `DatabaseError` wrapper — the caller sees an exception, not
a tagged failure result. -/
theorem sqlite_insertone_raises_cex :
    SQLite.insertone (DriverOutcome.fail ("disk I/O error")) =
      OpOutcome.raised (DbExc.databaseError ("SQLite") ("disk I/O error")) ∧
    SQLite.insertone (DriverOutcome.fail ("disk I/O error")) ≠ OpOutcome.value () := by
  refine ⟨rfl, ?_⟩
  intro h
  rw [show SQLite.insertone (DriverOutcome.fail ("disk I/O error")) =
        OpOutcome.raised (DbExc.databaseError ("SQLite") ("disk I/O error")) from rfl] at h
  exact OpOutcome.noConfusion h

/-- C6 (amended): per-operation failure routing is split by backend:
`MongoDB.set` of src/utils/database.py catches the driver error and returns
the tagged `(False, description)` result, while `SQLite.insertone` of
src/tgbot/core/database.py re-raises it wrapped in `DatabaseError`, and
`SQLite.deleteone`, which has no handler, lets the native driver exception
propagate to the caller. -/
theorem per_operation_error_routing (m : String) :
    MongoDB.set DriverOutcome.ok = OpOutcome.value MongoSetReturn.success ∧
    MongoDB.set (DriverOutcome.fail m) =
      OpOutcome.value (MongoSetReturn.failure ("MongoDB Set Key Error: " ++ m)) ∧
    SQLite.insertone DriverOutcome.ok = OpOutcome.value () ∧
    SQLite.insertone (DriverOutcome.fail m) =
      OpOutcome.raised (DbExc.databaseError ("SQLite") m) ∧
    SQLite.deleteone (DriverOutcome.fail m) =
      OpOutcome.raised (DbExc.nativeError ("SQLite") m) :=
  ⟨rfl, rfl, rfl, rfl, rfl⟩

/-- C1 (counterexample): read-your-own-writes fails structurally for string
values — after `set(1, "42")` with default persistence, `get(1)` returns the
integer `42`, not a value structurally equal to the string `"42"`, because
`set` coerces string values through `safe_convert` before caching. -/
theorem facade_read_own_write_string_cex :
    BaseDatabase.set ⟨[], []⟩ (PyVal.int 1) (PyVal.str "42") false =
      Except.ok ⟨[(PyVal.int 1, PyVal.int 42)], [(PyVal.int 1, PyVal.int 42)]⟩ ∧
    BaseDatabase.get ⟨[(PyVal.int 1, PyVal.int 42)], [(PyVal.int 1, PyVal.int 42)]⟩
        (PyVal.int 1) PyVal.none =
      Except.ok (PyVal.int 42,
        ⟨[(PyVal.int 1, PyVal.int 42)], [(PyVal.int 1, PyVal.int 42)]⟩) ∧
    PyVal.int 42 ≠ PyVal.str "42" := by
  refine ⟨rfl, rfl, ?_⟩
  intro h
  exact PyVal.noConfusion h

/-- C1 (amended): immediately after `facade.set(k, v)` with default
persistence, `facade.get(k)` succeeds and returns the coerced value
`normIfStr v` — which is `v` itself whenever `v` is not a string (and for
strings fixed by `safe_convert`), and the coercion of `v` otherwise. -/
theorem facade_read_own_write (db : BaseDatabaseState) (k v d : PyVal)
    (h : pyHashable (normIfStr k) = true) :
    ∃ db', BaseDatabase.set db k v false = Except.ok db' ∧
      BaseDatabase.get db' k d = Except.ok (normIfStr v, db') := by
  refine ⟨insertone ⟨cacheInsert db.cache (normIfStr k) (normIfStr v), db.store⟩
    (normIfStr k) (normIfStr v), ?_, ?_⟩
  · simp [BaseDatabase.set, h]
  · simp [BaseDatabase.get, h, insertone, cacheFind_cacheInsert_self]

theorem facade_read_own_write_witness :
    pyHashable (normIfStr (PyVal.int 1)) = true ∧
    (∃ db', BaseDatabase.set ⟨[], []⟩ (PyVal.int 1) (PyVal.int 2) false = Except.ok db' ∧
      BaseDatabase.get db' (PyVal.int 1) PyVal.none =
        Except.ok (normIfStr (PyVal.int 2), db')) :=
  ⟨rfl, facade_read_own_write ⟨[], []⟩ (PyVal.int 1) (PyVal.int 2) PyVal.none rfl⟩

/-- C8: `facade.set(k, v)` with `in_memory = true` rewrites exactly the cache
entry for the (normalized) key and leaves the backend store syntactically
unchanged; with `in_memory = false` (the default) it writes the same entry
to both the cache and the backend store. -/
theorem facade_cache_only_frame (db : BaseDatabaseState) (k v : PyVal)
    (h : pyHashable (normIfStr k) = true) :
    BaseDatabase.set db k v true =
      Except.ok ⟨cacheInsert db.cache (normIfStr k) (normIfStr v), db.store⟩ ∧
    BaseDatabase.set db k v false =
      Except.ok ⟨cacheInsert db.cache (normIfStr k) (normIfStr v),
        cacheInsert db.store (normIfStr k) (normIfStr v)⟩ := by
  constructor
  · simp [BaseDatabase.set, h]
  · simp [BaseDatabase.set, h, insertone]

theorem facade_cache_only_frame_witness :
    pyHashable (normIfStr (PyVal.str "42")) = true ∧
    (BaseDatabase.set ⟨[], []⟩ (PyVal.str "42") (PyVal.int 7) true =
      Except.ok ⟨cacheInsert [] (normIfStr (PyVal.str "42")) (normIfStr (PyVal.int 7)), []⟩ ∧
    BaseDatabase.set ⟨[], []⟩ (PyVal.str "42") (PyVal.int 7) false =
      Except.ok ⟨cacheInsert [] (normIfStr (PyVal.str "42")) (normIfStr (PyVal.int 7)),
        cacheInsert [] (normIfStr (PyVal.str "42")) (normIfStr (PyVal.int 7))⟩) :=
  ⟨rfl, facade_cache_only_frame ⟨[], []⟩ (PyVal.str "42") (PyVal.int 7) rfl⟩

/-- C9: a facade read of a key absent from both the cache and the backend
returns the supplied default and stores that default into the cache under
the key, so a later read with a different default still returns the first
default. -/
theorem facade_get_caches_default (db : BaseDatabaseState) (k d₁ d₂ : PyVal)
    (h : pyHashable (normIfStr k) = true)
    (hc : cacheFind db.cache (normIfStr k) = Option.none)
    (hs : cacheFind db.store (normIfStr k) = Option.none) :
    BaseDatabase.get db k d₁ =
      Except.ok (d₁, ⟨cacheInsert db.cache (normIfStr k) d₁, db.store⟩) ∧
    cacheFind (cacheInsert db.cache (normIfStr k) d₁) (normIfStr k) = some d₁ ∧
    BaseDatabase.get ⟨cacheInsert db.cache (normIfStr k) d₁, db.store⟩ k d₂ =
      Except.ok (d₁, ⟨cacheInsert db.cache (normIfStr k) d₁, db.store⟩) := by
  refine ⟨?_, cacheFind_cacheInsert_self _ _ _, ?_⟩
  · simp [BaseDatabase.get, h, hc, fetchone, hs]
  · simp [BaseDatabase.get, h, cacheFind_cacheInsert_self]

theorem facade_get_caches_default_witness :
    (pyHashable (normIfStr (PyVal.int 1)) = true ∧
      cacheFind [] (normIfStr (PyVal.int 1)) = Option.none ∧
      cacheFind [] (normIfStr (PyVal.int 1)) = Option.none) ∧
    (BaseDatabase.get ⟨[], []⟩ (PyVal.int 1) (PyVal.int 7) =
      Except.ok (PyVal.int 7, ⟨cacheInsert [] (normIfStr (PyVal.int 1)) (PyVal.int 7), []⟩) ∧
    cacheFind (cacheInsert [] (normIfStr (PyVal.int 1)) (PyVal.int 7))
        (normIfStr (PyVal.int 1)) = some (PyVal.int 7) ∧
    BaseDatabase.get ⟨cacheInsert [] (normIfStr (PyVal.int 1)) (PyVal.int 7), []⟩
        (PyVal.int 1) (PyVal.int 8) =
      Except.ok (PyVal.int 7, ⟨cacheInsert [] (normIfStr (PyVal.int 1)) (PyVal.int 7), []⟩)) :=
  ⟨⟨rfl, rfl, rfl⟩,
    facade_get_caches_default ⟨[], []⟩ (PyVal.int 1) (PyVal.int 7) (PyVal.int 8) rfl rfl rfl⟩

/-- C10 (counterexample): stored keys need not be in coercion-normal form —
`set` with the key `'"42"'` (a quoted numeral) coerces it once to the string
`"42"` and stores that, yet the coercion of `"42"` itself is the integer
`42`, so the stored key is not a fixed point of the coercion. -/
theorem facade_key_not_normal_cex :
    BaseDatabase.set ⟨[], []⟩ (PyVal.str "\"42\"") (PyVal.int 5) true =
      Except.ok ⟨[(PyVal.str "42", PyVal.int 5)], []⟩ ∧
    normIfStr (PyVal.str "42") = PyVal.int 42 ∧
    PyVal.int 42 ≠ PyVal.str "42" := by
  refine ⟨rfl, rfl, ?_⟩
  intro h
  exact PyVal.noConfusion h

/-- C10 (amended): `set`, `get` and `pop` each coerce a string key through
`safe_convert` exactly once before use, so the numeric-looking string key
`"42"` and the integer key `42` are interchangeable in every facade
operation; but `safe_convert` is not idempotent, so a stored key can fail to
be in coercion-normal form (see the counterexample). -/
theorem facade_key_normalization (db : BaseDatabaseState) (v d : PyVal) (b : Bool) :
    BaseDatabase.set db (PyVal.str "42") v b = BaseDatabase.set db (PyVal.int 42) v b ∧
    BaseDatabase.get db (PyVal.str "42") d = BaseDatabase.get db (PyVal.int 42) d ∧
    BaseDatabase.pop db (PyVal.str "42") = BaseDatabase.pop db (PyVal.int 42) := by
  have h : normIfStr (PyVal.str "42") = normIfStr (PyVal.int 42) := rfl
  refine ⟨?_, ?_, ?_⟩
  · simp only [BaseDatabase.set, h]
  · simp only [BaseDatabase.get, h]
  · simp only [BaseDatabase.pop, h]

theorem listWrapper_set_list (c : Cache) (k : PyVal) (xs l : List PyVal)
    (hk : pyHashable k = true) (hp : cacheFind c k = some (PyVal.list l)) :
    TempCache.ListWrapper.set c k (PyVal.list xs) =
      Except.ok (cacheInsert c k (PyVal.list (extendNovel l xs)), true) := by
  simp [TempCache.ListWrapper.set, hk, hp]

theorem listWrapper_set_list_absent (c : Cache) (k : PyVal) (xs : List PyVal)
    (hk : pyHashable k = true) (hn : cacheFind c k = Option.none) :
    TempCache.ListWrapper.set c k (PyVal.list xs) =
      Except.ok (cacheInsert c k (PyVal.list (extendNovel [] xs)), true) := by
  simp [TempCache.ListWrapper.set, hk, hn, cacheFind_cacheInsert_self,
    cacheInsert_cacheInsert]

theorem listWrapper_set_scalar (c : Cache) (k x : PyVal) (l : List PyVal)
    (hk : pyHashable k = true) (hp : cacheFind c k = some (PyVal.list l))
    (hx : ∀ xs, x ≠ PyVal.list xs) :
    TempCache.ListWrapper.set c k x =
      (if pyMemList x l then Except.ok (c, true)
       else Except.ok (cacheInsert c k (PyVal.list (l ++ [x])), true)) := by
  cases x with
  | list xs => exact absurd rfl (hx xs)
  | none => simp [TempCache.ListWrapper.set, hk, hp, pyContains]
  | bool b => simp [TempCache.ListWrapper.set, hk, hp, pyContains]
  | int n => simp [TempCache.ListWrapper.set, hk, hp, pyContains]
  | float q => simp [TempCache.ListWrapper.set, hk, hp, pyContains]
  | str s => simp [TempCache.ListWrapper.set, hk, hp, pyContains]
  | tuple xs => simp [TempCache.ListWrapper.set, hk, hp, pyContains]
  | dict en => simp [TempCache.ListWrapper.set, hk, hp, pyContains]

theorem listWrapper_set_scalar_absent (c : Cache) (k x : PyVal)
    (hk : pyHashable k = true) (hn : cacheFind c k = Option.none)
    (hx : ∀ xs, x ≠ PyVal.list xs) :
    TempCache.ListWrapper.set c k x =
      Except.ok (cacheInsert c k (PyVal.list [x]), true) := by
  cases x with
  | list xs => exact absurd rfl (hx xs)
  | none =>
    simp [TempCache.ListWrapper.set, hk, hn, cacheFind_cacheInsert_self,
      cacheInsert_cacheInsert, pyContains, pyMemList]
  | bool b =>
    simp [TempCache.ListWrapper.set, hk, hn, cacheFind_cacheInsert_self,
      cacheInsert_cacheInsert, pyContains, pyMemList]
  | int n =>
    simp [TempCache.ListWrapper.set, hk, hn, cacheFind_cacheInsert_self,
      cacheInsert_cacheInsert, pyContains, pyMemList]
  | float q =>
    simp [TempCache.ListWrapper.set, hk, hn, cacheFind_cacheInsert_self,
      cacheInsert_cacheInsert, pyContains, pyMemList]
  | str s =>
    simp [TempCache.ListWrapper.set, hk, hn, cacheFind_cacheInsert_self,
      cacheInsert_cacheInsert, pyContains, pyMemList]
  | tuple xs =>
    simp [TempCache.ListWrapper.set, hk, hn, cacheFind_cacheInsert_self,
      cacheInsert_cacheInsert, pyContains, pyMemList]
  | dict en =>
    simp [TempCache.ListWrapper.set, hk, hn, cacheFind_cacheInsert_self,
      cacheInsert_cacheInsert, pyContains, pyMemList]

theorem list_set_idem_conclusion_scalar (c : Cache) (k x : PyVal)
    (hk : pyHashable k = true)
    (hl : cacheFind c k = Option.none ∨ ∃ l, cacheFind c k = some (PyVal.list l))
    (hx : ∀ xs, x ≠ PyVal.list xs) :
    ∃ c', TempCache.ListWrapper.set c k x = Except.ok (c', true) ∧
      TempCache.ListWrapper.set c' k x = Except.ok (c', true) ∧
      (∀ l xs, x = PyVal.list xs → cacheFind c k = some (PyVal.list l) →
        cacheFind c' k = some (PyVal.list (l ++ specNovelElements l xs))) ∧
      (∀ xs, x = PyVal.list xs → cacheFind c k = Option.none →
        cacheFind c' k = some (PyVal.list (specNovelElements [] xs))) := by
  rcases hl with hn | ⟨l, hp⟩
  · refine ⟨cacheInsert c k (PyVal.list [x]), ?_, ?_, ?_, ?_⟩
    · exact listWrapper_set_scalar_absent c k x hk hn hx
    · have hf : cacheFind (cacheInsert c k (PyVal.list [x])) k =
          some (PyVal.list [x]) := cacheFind_cacheInsert_self c k _
      rw [listWrapper_set_scalar _ _ _ _ hk hf hx]
      simp [pyMemList, pyEq_refl]
    · intro l' xs hx' hf
      exact absurd hx' (hx xs)
    · intro xs hx' hf
      exact absurd hx' (hx xs)
  · by_cases hm : pyMemList x l = true
    · refine ⟨c, ?_, ?_, ?_, ?_⟩
      · rw [listWrapper_set_scalar c k x l hk hp hx]
        simp [hm]
      · rw [listWrapper_set_scalar c k x l hk hp hx]
        simp [hm]
      · intro l' xs hx' hf
        exact absurd hx' (hx xs)
      · intro xs hx' hf
        exact absurd hx' (hx xs)
    · refine ⟨cacheInsert c k (PyVal.list (l ++ [x])), ?_, ?_, ?_, ?_⟩
      · rw [listWrapper_set_scalar c k x l hk hp hx]
        simp [hm]
      · have hf : cacheFind (cacheInsert c k (PyVal.list (l ++ [x]))) k =
            some (PyVal.list (l ++ [x])) := cacheFind_cacheInsert_self c k _
        rw [listWrapper_set_scalar _ _ _ _ hk hf hx]
        have hmem : pyMemList x (l ++ [x]) = true := by
          simp [pyMemList_append, pyMemList, pyEq_refl]
        simp [hmem]
      · intro l' xs hx' hf
        exact absurd hx' (hx xs)
      · intro xs hx' hf
        exact absurd hx' (hx xs)

/-- C4: `ListWrapper.set` is idempotent — on a key whose stored value is
list-shaped (or absent), a second call with the same item leaves the cache
exactly as after the first call; and for a list item the first call appends
exactly the spec's novel elements of the item, in order, skipping
duplicates. -/
theorem list_set_idempotent (c : Cache) (k x : PyVal)
    (hk : pyHashable k = true)
    (hl : cacheFind c k = Option.none ∨ ∃ l, cacheFind c k = some (PyVal.list l)) :
    ∃ c', TempCache.ListWrapper.set c k x = Except.ok (c', true) ∧
      TempCache.ListWrapper.set c' k x = Except.ok (c', true) ∧
      (∀ l xs, x = PyVal.list xs → cacheFind c k = some (PyVal.list l) →
        cacheFind c' k = some (PyVal.list (l ++ specNovelElements l xs))) ∧
      (∀ xs, x = PyVal.list xs → cacheFind c k = Option.none →
        cacheFind c' k = some (PyVal.list (specNovelElements [] xs))) := by
  cases x with
  | list xs =>
    rcases hl with hn | ⟨l, hp⟩
    · refine ⟨cacheInsert c k (PyVal.list (extendNovel [] xs)), ?_, ?_, ?_, ?_⟩
      · exact listWrapper_set_list_absent c k xs hk hn
      · have hf : cacheFind (cacheInsert c k (PyVal.list (extendNovel [] xs))) k =
            some (PyVal.list (extendNovel [] xs)) := cacheFind_cacheInsert_self c k _
        rw [listWrapper_set_list _ _ _ _ hk hf, extendNovel_extendNovel,
          cacheInsert_eq_self_of_cacheFind _ _ _ hf]
      · intro l' xs' hx hf
        rw [hn] at hf
        exact Option.noConfusion hf
      · intro xs' hx hf
        injection hx with hxs
        subst hxs
        rw [cacheFind_cacheInsert_self, extendNovel_eq_append_specNovelElements]
        simp
    · refine ⟨cacheInsert c k (PyVal.list (extendNovel l xs)), ?_, ?_, ?_, ?_⟩
      · exact listWrapper_set_list c k xs l hk hp
      · have hf : cacheFind (cacheInsert c k (PyVal.list (extendNovel l xs))) k =
            some (PyVal.list (extendNovel l xs)) := cacheFind_cacheInsert_self c k _
        rw [listWrapper_set_list _ _ _ _ hk hf, extendNovel_extendNovel,
          cacheInsert_eq_self_of_cacheFind _ _ _ hf]
      · intro l' xs' hx hf
        injection hx with hxs
        subst hxs
        rw [hp] at hf
        injection hf with hv
        injection hv with hl'
        subst hl'
        rw [cacheFind_cacheInsert_self, extendNovel_eq_append_specNovelElements]
      · intro xs' hx hf
        rw [hp] at hf
        exact Option.noConfusion hf
  | none => exact list_set_idem_conclusion_scalar c k _ hk hl (fun xs h => PyVal.noConfusion h)
  | bool b => exact list_set_idem_conclusion_scalar c k _ hk hl (fun xs h => PyVal.noConfusion h)
  | int n => exact list_set_idem_conclusion_scalar c k _ hk hl (fun xs h => PyVal.noConfusion h)
  | float q => exact list_set_idem_conclusion_scalar c k _ hk hl (fun xs h => PyVal.noConfusion h)
  | str s => exact list_set_idem_conclusion_scalar c k _ hk hl (fun xs h => PyVal.noConfusion h)
  | tuple xs => exact list_set_idem_conclusion_scalar c k _ hk hl (fun xs h => PyVal.noConfusion h)
  | dict en => exact list_set_idem_conclusion_scalar c k _ hk hl (fun xs h => PyVal.noConfusion h)

theorem list_set_idempotent_witness :
    (pyHashable (PyVal.int 1) = true ∧
      (cacheFind [] (PyVal.int 1) = Option.none ∨
        ∃ l, cacheFind [] (PyVal.int 1) = some (PyVal.list l))) ∧
    (∃ c', TempCache.ListWrapper.set [] (PyVal.int 1) (PyVal.int 5) = Except.ok (c', true) ∧
      TempCache.ListWrapper.set c' (PyVal.int 1) (PyVal.int 5) = Except.ok (c', true) ∧
      (∀ l xs, PyVal.int 5 = PyVal.list xs →
        cacheFind [] (PyVal.int 1) = some (PyVal.list l) →
        cacheFind c' (PyVal.int 1) = some (PyVal.list (l ++ specNovelElements l xs))) ∧
      (∀ xs, PyVal.int 5 = PyVal.list xs → cacheFind [] (PyVal.int 1) = Option.none →
        cacheFind c' (PyVal.int 1) = some (PyVal.list (specNovelElements [] xs)))) :=
  ⟨⟨rfl, Or.inl rfl⟩, list_set_idempotent [] (PyVal.int 1) (PyVal.int 5) rfl (Or.inl rfl)⟩

/-- C5 (counterexample): the no-empty-list invariant does not hold after
every cache operation — `ListWrapper.set` with an empty-list item on a
missing key creates an entry mapping the key to the empty list, which a
subsequent `get` returns instead of the default. -/
theorem empty_list_invariant_cex :
    TempCache.ListWrapper.set [] (PyVal.int 1) (PyVal.list []) =
      Except.ok ([(PyVal.int 1, PyVal.list [])], true) ∧
    TempCache.get [(PyVal.int 1, PyVal.list [])] (PyVal.int 1) (PyVal.int 7) =
      Except.ok (PyVal.list []) ∧
    PyVal.list [] ≠ PyVal.int 7 := by
  refine ⟨rfl, rfl, ?_⟩
  intro h
  exact PyVal.noConfusion h

/-- C5 (amended): `remove_list_item` removing the last element of a key's
list does delete the key entirely (for a duplicate-free cache map), so a
subsequent `get(k, default)` returns the default — but the no-empty-list
invariant is not maintained by every cache operation, since `set_list_item`
with an empty-list item (or a plain `set` with `[]`) creates an empty-list
entry. -/
theorem remove_last_item_removes_key (c : Cache) (k x d : PyVal) (l : List PyVal)
    (hk : pyHashable k = true)
    (hcount : countMatches c k ≤ 1)
    (hfind : cacheFind c k = some (PyVal.list l))
    (hrem : pyRemoveFirst l x = some []) :
    TempCache.ListWrapper.delete c k x = Except.ok (cacheErase c k, true) ∧
    cacheFind (cacheErase c k) k = Option.none ∧
    TempCache.get (cacheErase c k) k d = Except.ok d := by
  have hnone := cacheFind_cacheErase_self c k hcount
  refine ⟨?_, hnone, ?_⟩
  · simp [TempCache.ListWrapper.delete, hk, hfind, hrem]
  · simp [TempCache.get, hk, cacheGet, hnone]

theorem remove_last_item_removes_key_witness :
    (pyHashable (PyVal.int 1) = true ∧
      countMatches [(PyVal.int 1, PyVal.list [PyVal.int 2])] (PyVal.int 1) ≤ 1 ∧
      cacheFind [(PyVal.int 1, PyVal.list [PyVal.int 2])] (PyVal.int 1) =
        some (PyVal.list [PyVal.int 2]) ∧
      pyRemoveFirst [PyVal.int 2] (PyVal.int 2) = some []) ∧
    (TempCache.ListWrapper.delete [(PyVal.int 1, PyVal.list [PyVal.int 2])] (PyVal.int 1)
        (PyVal.int 2) =
      Except.ok (cacheErase [(PyVal.int 1, PyVal.list [PyVal.int 2])] (PyVal.int 1), true) ∧
    cacheFind (cacheErase [(PyVal.int 1, PyVal.list [PyVal.int 2])] (PyVal.int 1))
        (PyVal.int 1) = Option.none ∧
    TempCache.get (cacheErase [(PyVal.int 1, PyVal.list [PyVal.int 2])] (PyVal.int 1))
        (PyVal.int 1) (PyVal.int 9) = Except.ok (PyVal.int 9)) :=
  ⟨⟨rfl, by decide, rfl, rfl⟩,
    remove_last_item_removes_key [(PyVal.int 1, PyVal.list [PyVal.int 2])] (PyVal.int 1)
      (PyVal.int 2) (PyVal.int 9) [PyVal.int 2] rfl (by decide) rfl rfl⟩

/-- C7 (counterexample): shape mismatch is not a distinguishable error —
`DictWrapper.set` on a key holding a list silently reports success without
modifying anything, and `ListWrapper.set` on a key holding a dict silently
reports success when the item happens to be one of the dict's keys. -/
theorem shape_mismatch_silent_cex :
    TempCache.DictWrapper.set [(PyVal.int 1, PyVal.list [PyVal.int 2])] (PyVal.int 1)
        (PyVal.int 3) (PyVal.int 4) =
      Except.ok ([(PyVal.int 1, PyVal.list [PyVal.int 2])], true) ∧
    TempCache.ListWrapper.set [(PyVal.int 1, PyVal.dict [(PyVal.str "a", PyVal.int 5)])]
        (PyVal.int 1) (PyVal.str "a") =
      Except.ok ([(PyVal.int 1, PyVal.dict [(PyVal.str "a", PyVal.int 5)])], true) :=
  ⟨rfl, rfl⟩

/-- C7 (amended): container helpers applied to a wrong-shaped value never
overwrite or coerce it, but they do not uniformly fail with a
distinguishable error: the list helper on a dict-shaped value raises an
incidental `AttributeError` for a list item or for a novel hashable item,
yet silently reports success when the item is already a key of the dict; and
the dict helper on a non-dict value silently reports success without any
error. -/
theorem shape_mismatch_behavior (c : Cache) (k : PyVal) (hk : pyHashable k = true) :
    (∀ d xs, cacheFind c k = some (PyVal.dict d) →
      TempCache.ListWrapper.set c k (PyVal.list xs) =
        Except.error (PyErr.attributeError ("object has no attribute extend"))) ∧
    (∀ d v, cacheFind c k = some (PyVal.dict d) → pyHashable v = true →
      List.any d (fun e => pyEq v e.1) = false →
      TempCache.ListWrapper.set c k v =
        Except.error (PyErr.attributeError ("object has no attribute append"))) ∧
    (∀ d v, cacheFind c k = some (PyVal.dict d) → pyHashable v = true →
      List.any d (fun e => pyEq v e.1) = true →
      TempCache.ListWrapper.set c k v = Except.ok (c, true)) ∧
    (∀ l sk v, cacheFind c k = some (PyVal.list l) →
      TempCache.DictWrapper.set c k sk v = Except.ok (c, true)) := by
  refine ⟨?_, ?_, ?_, ?_⟩
  · intro d xs hf
    simp [TempCache.ListWrapper.set, hk, hf]
  · intro d v hf hv hm
    cases v with
    | list xs => simp [pyHashable] at hv
    | dict en => simp [pyHashable] at hv
    | none => (simp [TempCache.ListWrapper.set, hk, hf, pyContains, pyHashable, hm]; exact hk)
    | bool b => (simp [TempCache.ListWrapper.set, hk, hf, pyContains, pyHashable, hm]; exact hk)
    | int n => (simp [TempCache.ListWrapper.set, hk, hf, pyContains, pyHashable, hm]; exact hk)
    | float q => (simp [TempCache.ListWrapper.set, hk, hf, pyContains, pyHashable, hm]; exact hk)
    | str s => (simp [TempCache.ListWrapper.set, hk, hf, pyContains, pyHashable, hm]; exact hk)
    | tuple xs => (simp [TempCache.ListWrapper.set, hk, hf, pyContains, pyHashable, hm]; exact hk)
  · intro d v hf hv hm
    cases v with
    | list xs => simp [pyHashable] at hv
    | dict en => simp [pyHashable] at hv
    | none => (simp [TempCache.ListWrapper.set, hk, hf, pyContains, pyHashable, hm]; exact hk)
    | bool b => (simp [TempCache.ListWrapper.set, hk, hf, pyContains, pyHashable, hm]; exact hk)
    | int n => (simp [TempCache.ListWrapper.set, hk, hf, pyContains, pyHashable, hm]; exact hk)
    | float q => (simp [TempCache.ListWrapper.set, hk, hf, pyContains, pyHashable, hm]; exact hk)
    | str s => (simp [TempCache.ListWrapper.set, hk, hf, pyContains, pyHashable, hm]; exact hk)
    | tuple xs => (simp [TempCache.ListWrapper.set, hk, hf, pyContains, pyHashable, hm]; exact hk)
  · intro l sk v hf
    simp [TempCache.DictWrapper.set, hk, hf]

theorem shape_mismatch_behavior_witness :
    pyHashable (PyVal.int 1) = true ∧
    cacheFind [(PyVal.int 1, PyVal.dict [(PyVal.str "a", PyVal.int 5)])] (PyVal.int 1) =
      some (PyVal.dict [(PyVal.str "a", PyVal.int 5)]) ∧
    TempCache.ListWrapper.set [(PyVal.int 1, PyVal.dict [(PyVal.str "a", PyVal.int 5)])]
        (PyVal.int 1) (PyVal.list []) =
      Except.error (PyErr.attributeError ("object has no attribute extend")) :=
  ⟨rfl, rfl,
    (shape_mismatch_behavior [(PyVal.int 1, PyVal.dict [(PyVal.str "a", PyVal.int 5)])]
      (PyVal.int 1) rfl).1 [(PyVal.str "a", PyVal.int 5)] [] rfl⟩
